import Mathlib

/-
Verification of the trading-bot decision/risk kernel.

Shallow embedding of the Python sources (src/backend):
 - indicators.py      : class SuperTrend (trend-band indicator)
 - strategy_agent.py  : class STAdxMacdAgent (wave-lock decision policy)
 - trading_bot.py     : TradingBot.check_trailing_sl,
                        TradingBot._apply_profit_lock_and_step_trailing,
                        TradingBot.check_tick_sl, run_loop entry selection
 - backtest.py        : _calc_points_pnl, _equity_max_drawdown, run_backtest

Prices and money amounts are modelled as rationals; Python int() truncation
is the function pyTrunc below; Python round(x, 2) is pyRound2 (round half
to even, exact decimal semantics).
-/

namespace TB

/-- Truncation toward zero, the semantics of Python's int() on a number. -/
def pyTrunc (x : ℚ) : ℤ :=
  if 0 ≤ x then ⌊x⌋ else -(⌊-x⌋)

/-- Round half to even to an integer, the semantics of Python's round(). -/
def roundHalfEven (q : ℚ) : ℤ :=
  let f := ⌊q⌋
  let r := q - f
  if r < 1/2 then f
  else if 1/2 < r then f + 1
  else if f % 2 = 0 then f else f + 1

/-- Python round(x, 2) on an exact rational. -/
def pyRound2 (x : ℚ) : ℚ :=
  (roundHalfEven (100 * x) : ℚ) / 100

/-- Option kind: call (CE) or put (PE); both are held long by the bot. -/
inductive Side
  | CE
  | PE
deriving DecidableEq, Repr

/-- Exit reasons produced by the risk checks, the backtest and the loop. -/
inductive ExitReason
  | dailyMaxLoss
  | maxLossPerTrade
  | targetHit
  | trailingSlHit
  | stoplossHit
  | superTrendReversal
  | reverseEntry
  | agentExit
  | flipExit
  | eod
deriving DecidableEq, Repr

/-! ## SuperTrend (src/backend/indicators.py, class SuperTrend) -/

/-- One OHLC candle as consumed by SuperTrend.add_candle (open unused). -/
structure Candle3 where
  high : ℚ
  low : ℚ
  close : ℚ
deriving DecidableEq, Repr

/-- One record of SuperTrend.supertrend_values. -/
structure STVal where
  upper : ℚ
  lower : ℚ
  value : ℚ
  direction : ℤ
deriving DecidableEq, Repr

/-- The mutable state of a SuperTrend instance. -/
structure STState where
  period : ℕ
  multiplier : ℚ
  candles : List Candle3
  atr_values : List ℚ
  supertrend_values : List STVal
  direction : ℤ
deriving DecidableEq, Repr

/-- SuperTrend.__init__ : empty history, direction starts at 1 (bullish). -/
def STState.init (period : ℕ) (multiplier : ℚ) : STState :=
  ⟨period, multiplier, [], [], [], 1⟩

/-- SuperTrend.reset : clear all lists and restore direction to 1. -/
def STState.reset (s : STState) : STState :=
  { s with candles := [], atr_values := [], supertrend_values := [], direction := 1 }

/-- True range of candle i of cs, with the i-1 lookback of the initial-ATR
loop in SuperTrend.add_candle (i = 0 reduces to high - low). -/
def trueRangeAt (cs : List Candle3) (i : ℕ) : ℚ :=
  match cs.get? i with
  | none => 0
  | some cur =>
    if i = 0 then cur.high - cur.low
    else
      match cs.get? (i - 1) with
      | none => cur.high - cur.low
      | some prev =>
          max (cur.high - cur.low) (max |cur.high - prev.close| |cur.low - prev.close|)

/-- Keep the last n elements of a list (the Python l[-n:] trimming). -/
def lastN (n : ℕ) (l : List α) : List α :=
  l.drop (l.length - n)

/-- Signal returned by add_candle: GREEN when bullish, RED when bearish. -/
inductive STSignal
  | green
  | red
deriving DecidableEq, Repr

/-- Final-band carry-forward rule of add_candle (indicators.py 67-72):
returns (final_upper, final_lower) from the previous record, the previous
close and this candle's basic bands. -/
def st_final_bands (prev : STVal) (pc basic_upper basic_lower : ℚ) : ℚ × ℚ :=
  (if basic_upper < prev.upper ∨ pc > prev.upper then basic_upper else prev.upper,
   if basic_lower > prev.lower ∨ pc < prev.lower then basic_lower else prev.lower)

/-- Direction rule of add_candle (indicators.py 78-82) for candles after
the first emitted value: a bullish direction turns bearish only when the
close falls below the current final lower band, a bearish one turns
bullish only when the close rises above the current final upper band. -/
def st_next_dir (prevdir : ℤ) (close final_upper final_lower : ℚ) : ℤ :=
  if prevdir = 1 then (if close < final_lower then -1 else 1)
  else (if close > final_upper then 1 else -1)

/-- Tail of SuperTrend.add_candle (indicators.py 84-101): record the new
direction and bands, append them to the history, trim the history to the
last 100 entries when needed, and return the (value, signal) pair. -/
def st_emit (s : STState) (cs : List Candle3) (atr fu fl : ℚ) (dir : ℤ) :
    STState × Option ℚ × Option STSignal :=
  let stValue := if dir = 1 then fl else fu
  let sv : STVal := ⟨fu, fl, stValue, dir⟩
  let atrs := s.atr_values ++ [atr]
  let svs := s.supertrend_values ++ [sv]
  let s' : STState :=
    if cs.length > 100 then
      { s with candles := lastN 100 cs, atr_values := lastN 100 atrs,
               supertrend_values := lastN 100 svs, direction := dir }
    else
      { s with candles := cs, atr_values := atrs,
               supertrend_values := svs, direction := dir }
  (s', some stValue, some (if dir = 1 then STSignal.green else STSignal.red))

/-- SuperTrend.add_candle, translated statement by statement. Returns the
new state plus the (value, signal) pair; (none, none) during warm-up. -/
def STState.addCandle (s : STState) (high low close : ℚ) :
    STState × Option ℚ × Option STSignal :=
  if (s.candles ++ [Candle3.mk high low close]).length < s.period then
    ({ s with candles := s.candles ++ [Candle3.mk high low close] }, none, none)
  else
    let cs := s.candles ++ [Candle3.mk high low close]
    let prevClose? := (s.candles.getLast?).map Candle3.close
    let tr := max (high - low)
      (max (match prevClose? with | some pc => |high - pc| | none => 0)
           (match prevClose? with | some pc => |low - pc| | none => 0))
    let atr :=
      if s.atr_values = [] then
        let n := cs.length
        let trs := ((List.range n).drop (n - s.period)).map (trueRangeAt cs)
        if trs = [] then 0 else trs.sum / (trs.length : ℚ)
      else
        ((s.atr_values.getLast?).getD 0 * ((s.period : ℚ) - 1) + tr) / (s.period : ℚ)
    let hl2 := (high + low) / 2
    let basic_upper := hl2 + s.multiplier * atr
    let basic_lower := hl2 - s.multiplier * atr
    let fin :=
      match s.supertrend_values.getLast? with
      | none =>
          let dir : ℤ := if close > basic_upper then 1 else -1
          (basic_upper, basic_lower, dir)
      | some prev =>
          let pc := prevClose?.getD 0
          let fb := st_final_bands prev pc basic_upper basic_lower
          (fb.1, fb.2, st_next_dir prev.direction close fb.1 fb.2)
    st_emit s cs atr fin.1 fin.2.1 fin.2.2

/-- Feed a list of candles to a SuperTrend instance, collecting outputs. -/
def STState.run (s : STState) (cs : List Candle3) :
    STState × List (Option ℚ × Option STSignal) :=
  match cs with
  | [] => (s, [])
  | c :: rest =>
      let r := s.addCandle c.high c.low c.close
      let t := r.1.run rest
      (t.1, r.2 :: t.2)

/-! ## Live risk manager (src/backend/trading_bot.py) -/

/-- Risk-related configuration keys read by the TradingBot risk methods. -/
structure RiskConfig where
  initial_stoploss : ℚ
  trail_start_profit : ℚ
  trail_step : ℚ
  target_points : ℚ
  max_loss_per_trade : ℚ
  daily_max_loss : ℚ
deriving DecidableEq, Repr

/-- The per-position trailing state carried by TradingBot between calls:
self.trailing_sl (None until first set) and self.highest_profit. -/
structure TrailState where
  trailing_sl : Option ℚ
  highest_profit : ℚ
deriving DecidableEq, Repr

/-- TradingBot.check_trailing_sl (trading_bot.py 1340-1399): initial fixed
stop, then step trailing of the stop using the highest profit reached.
hist is the strategy_mode == st_macd_hist test; hasPos is
self.current_position truthiness. -/
def check_trailing_sl (hist : Bool) (cfg : RiskConfig) (hasPos : Bool)
    (entry : ℚ) (st : TrailState) (ltp : ℚ) : TrailState :=
  if hasPos = false then st
  else if hist then
    match st.trailing_sl with
    | none =>
        if cfg.initial_stoploss > 0 then
          { st with trailing_sl := some (entry - cfg.initial_stoploss) }
        else st
    | some _ => st
  else
    let tsl1 : Option ℚ :=
      if cfg.initial_stoploss > 0 ∧ st.trailing_sl = none then
        some (entry - cfg.initial_stoploss)
      else st.trailing_sl
    if cfg.trail_start_profit = 0 ∨ cfg.trail_step = 0 then ⟨tsl1, st.highest_profit⟩
    else
      let profit := ltp - entry
      let hp1 := if profit > st.highest_profit then profit else st.highest_profit
      if profit < cfg.trail_start_profit then ⟨tsl1, hp1⟩
      else
        let levels := pyTrunc ((hp1 - cfg.trail_start_profit) / cfg.trail_step)
        let new_sl := entry + (levels : ℚ) * cfg.trail_step
        match tsl1 with
        | none => ⟨some new_sl, hp1⟩
        | some x =>
            if new_sl > x then ⟨some new_sl, hp1⟩ else ⟨some x, hp1⟩

/-- TradingBot._apply_profit_lock_and_step_trailing (trading_bot.py
1401-1456): profit lock at entry + trail_start_profit plus an optional
step overlay on top of the lock; the stop is only ever raised. -/
def apply_profit_lock_and_step_trailing (cfg : RiskConfig) (hasPos : Bool)
    (entry : ℚ) (st : TrailState) (ltp : ℚ) : TrailState :=
  if hasPos = false then st
  else if entry ≤ 0 then st
  else if ltp ≤ 0 then st
  else
    let lock_points := cfg.trail_start_profit
    if lock_points ≤ 0 then st
    else
      let profit := ltp - entry
      if profit < lock_points then st
      else
        let hp1 := if profit > st.highest_profit then profit else st.highest_profit
        let lock_sl := entry + lock_points
        let new_sl :=
          if cfg.trail_step > 0 then
            let levels := pyTrunc ((hp1 - lock_points) / cfg.trail_step)
            max lock_sl (entry + lock_points + ((max 0 levels : ℤ) : ℚ) * cfg.trail_step)
          else lock_sl
        match st.trailing_sl with
        | none => ⟨some new_sl, hp1⟩
        | some x => ⟨some (max x new_sl), hp1⟩

/-- Candle-close stop update of the band-anchored (st_macd_hist) mode
(trading_bot.py 967-985 and 1131-1156): raise the stop to the SuperTrend
value, then overlay the profit lock and step trailing. -/
def band_anchor_update (cfg : RiskConfig) (entry : ℚ) (st : TrailState)
    (st_value ltp : ℚ) : TrailState :=
  let tsl1 : ℚ :=
    match st.trailing_sl with
    | none => st_value
    | some x => max x st_value
  apply_profit_lock_and_step_trailing cfg true entry ⟨some tsl1, st.highest_profit⟩ ltp

/-- Truthiness test of self.trailing_sl followed by the breach comparison,
as in check_tick_sl: a stop of exactly 0 is falsy and never fires. -/
def sl_breached (tsl : Option ℚ) (ltp : ℚ) : Bool :=
  match tsl with
  | none => false
  | some s => if s = 0 then false else decide (ltp ≤ s)

/-- Result of one TradingBot.check_tick_sl call: the close reason chosen
(none when the position stays open), the updated trailing state, and
whether this call latched the daily halt flag. -/
structure TickResult where
  reason : Option ExitReason
  state : TrailState
  daily_halt_latched : Bool
deriving DecidableEq, Repr

/-- TradingBot.check_tick_sl (trading_bot.py 1549-1600): per-tick exit
checks in source order - daily loss cap, per-trade loss cap, target,
then trailing stop (after the mode-dependent stop update). -/
def check_tick_sl (hist : Bool) (cfg : RiskConfig) (hasPos : Bool)
    (entry qty daily_pnl : ℚ) (st : TrailState) (ltp : ℚ) : TickResult :=
  if hasPos = false then ⟨none, st, false⟩
  else
    let profit := ltp - entry
    let pnl := profit * qty
    if cfg.daily_max_loss > 0 ∧ daily_pnl + pnl < -cfg.daily_max_loss then
      ⟨some ExitReason.dailyMaxLoss, st, true⟩
    else if cfg.max_loss_per_trade > 0 ∧ pnl < -cfg.max_loss_per_trade then
      ⟨some ExitReason.maxLossPerTrade, st, false⟩
    else if cfg.target_points > 0 ∧ profit ≥ cfg.target_points then
      ⟨some ExitReason.targetHit, st, false⟩
    else
      let st1 :=
        if hist then apply_profit_lock_and_step_trailing cfg true entry st ltp
        else check_trailing_sl false cfg true entry st ltp
      if sl_breached st1.trailing_sl ltp then
        ⟨some ExitReason.trailingSlHit, st1, false⟩
      else
        ⟨none, st1, false⟩

/-- Run check_trailing_sl over a sequence of tick prices, collecting the
stop level after each tick (used for the worked scenario of the spec). -/
def run_trailing_ticks (hist : Bool) (cfg : RiskConfig) (entry : ℚ)
    (st : TrailState) (ltps : List ℚ) : TrailState × List (Option ℚ) :=
  match ltps with
  | [] => (st, [])
  | p :: rest =>
      let st' := check_trailing_sl hist cfg true entry st p
      let t := run_trailing_ticks hist cfg entry st' rest
      (t.1, st'.trailing_sl :: t.2)

/-! ## Decision agent (src/backend/strategy_agent.py, STAdxMacdAgent) -/

/-- Action returned by the agent (strategy_agent.py AgentAction). -/
inductive AgentAction
  | enterCE
  | enterPE
  | exitPos
  | hold
deriving DecidableEq, Repr

/-- Mutable state of STAdxMacdAgent plus its two constructor parameters. -/
structure AgentState where
  adx_min : ℚ
  wave_reset_macd_abs : ℚ
  wave_lock : Bool
  last_trade_side : Option Side
deriving DecidableEq, Repr

/-- STAdxMacdAgent.__init__. -/
def AgentState.init (adx_min wave_reset : ℚ) : AgentState :=
  ⟨adx_min, wave_reset, false, none⟩

/-- STAdxMacdAgent.reset_session. -/
def AgentState.reset_session (s : AgentState) : AgentState :=
  { s with wave_lock := false, last_trade_side := none }

/-- The AgentInputs dataclass fields the decision depends on. -/
structure AgentInputs where
  st_dir : Option ℤ
  flipped : Bool
  adx : Option ℚ
  macd_cur : Option ℚ
  macd_prev : Option ℚ
  in_position : Bool
  cur_side : Option Side
deriving DecidableEq, Repr

/-- STAdxMacdAgent.decide (strategy_agent.py 66-122), translated statement
by statement; returns the action and the post-call agent state. -/
def agent_decide (s0 : AgentState) (i : AgentInputs) : AgentAction × AgentState :=
  let s :=
    if s0.wave_lock then
      match i.macd_cur with
      | some m => if |m| < s0.wave_reset_macd_abs then { s0 with wave_lock := false } else s0
      | none => s0
    else s0
  if ¬(i.st_dir = some 1 ∨ i.st_dir = some (-1)) then (AgentAction.hold, s)
  else
    match i.adx, i.macd_cur, i.macd_prev with
    | some a, some m, some mp =>
        if i.in_position = false then
          if s.wave_lock then (AgentAction.hold, s)
          else if i.flipped = false then (AgentAction.hold, s)
          else if a < s.adx_min then (AgentAction.hold, s)
          else if i.st_dir = some 1 then
            if m > 0 ∧ m > mp then
              (AgentAction.enterCE, { s with wave_lock := true, last_trade_side := some Side.CE })
            else (AgentAction.hold, s)
          else if i.st_dir = some (-1) then
            if m < 0 ∧ m < mp then
              (AgentAction.enterPE, { s with wave_lock := true, last_trade_side := some Side.PE })
            else (AgentAction.hold, s)
          else (AgentAction.hold, s)
        else
          if i.flipped then (AgentAction.exitPos, s)
          else
            let trade_side :=
              match s.last_trade_side with
              | some t => some t
              | none => i.cur_side
            if trade_side = some Side.CE ∧ m < mp then (AgentAction.exitPos, s)
            else if trade_side = some Side.PE ∧ m > mp then (AgentAction.exitPos, s)
            else (AgentAction.hold, s)
    | _, _, _ => (AgentAction.hold, s)

/-! ## Contract selection (src/backend/trading_bot.py run_loop, 995-1014) -/

/-- Strict lexicographic comparison on the sort key
(abs(strike - center), strike) used by _pick_nearest. -/
def strike_key_lt (center a b : ℤ) : Bool :=
  if |a - center| < |b - center| then true
  else if |a - center| = |b - center| then decide (a < b)
  else false

/-- The _pick_nearest helper: head of the list stably sorted by
(abs(strike - center), strike), i.e. the first minimum under that key. -/
def pick_nearest (center : ℤ) (cands : List ℤ) : Option ℤ :=
  cands.foldl
    (fun acc s =>
      match acc with
      | none => some s
      | some b => if strike_key_lt center s b then some s else some b)
    none

/-- Reflexive-transitive version of the _pick_nearest sort key order:
strictly nearer to the center strike, or equally near with a lower or
equal strike value. -/
def keyLE (center a b : ℤ) : Prop :=
  |a - center| < |b - center| ∨ (|a - center| = |b - center| ∧ a ≤ b)

/-- The entry chooser of run_loop: try the eligible CE strikes first and
fall back to the eligible PE strikes only when no CE is eligible. -/
def choose_entry (center : ℤ) (eligible_ce eligible_pe : List ℤ) :
    Option (Side × ℤ) :=
  match pick_nearest center eligible_ce with
  | some s => some (Side.CE, s)
  | none =>
      match pick_nearest center eligible_pe with
      | some s => some (Side.PE, s)
      | none => none

/-! ## Backtest (src/backend/backtest.py) -/

/-- The _calc_points_pnl helper: CE profits when the index rises, PE
profits when the index falls. -/
def calc_points_pnl (side : Side) (entry exit_ : ℚ) : ℚ :=
  match side with
  | Side.CE => exit_ - entry
  | Side.PE => entry - exit_

/-- The _equity_max_drawdown helper: maximum running peak-to-trough drop;
the float(-inf) initial running maximum is modelled as none. -/
def equity_max_drawdown (equity : List ℚ) : ℚ :=
  (equity.foldl
    (fun (acc : Option ℚ × ℚ) x =>
      let rm := match acc.1 with | none => x | some m => max m x
      (some rm, max acc.2 (rm - x)))
    (none, 0)).2

/-- Risk parameters of run_backtest used by the per-candle OHLC exits. -/
structure BtRiskParams where
  stoploss_points : ℚ
  tgt_points : ℚ
  trail_start : ℚ
  trail_step_points : ℚ
deriving DecidableEq, Repr

/-- Updated best_favorable_points for the candle (backtest.py 200, 225). -/
def bt_best (side : Side) (entry best high low : ℚ) : ℚ :=
  match side with
  | Side.CE => max best (high - entry)
  | Side.PE => max best (entry - low)

/-- initial_stop_level of the backtest risk block (backtest.py 203, 227). -/
def bt_initial_stop (side : Side) (entry : ℚ) (p : BtRiskParams) : Option ℚ :=
  if p.stoploss_points > 0 then
    some (match side with
          | Side.CE => entry - p.stoploss_points
          | Side.PE => entry + p.stoploss_points)
  else none

/-- trailing_level of the backtest risk block (backtest.py 205-208,
229-232), with int() truncation of the step count. -/
def bt_trailing_level (side : Side) (entry b : ℚ) (p : BtRiskParams) : Option ℚ :=
  if p.trail_start > 0 ∧ p.trail_step_points > 0 ∧ b ≥ p.trail_start then
    let steps : ℚ := (pyTrunc ((b - p.trail_start) / p.trail_step_points) : ℚ)
    some (match side with
          | Side.CE => entry + steps * p.trail_step_points
          | Side.PE => entry - steps * p.trail_step_points)
  else none

/-- effective_stop of the backtest risk block (backtest.py 210-214,
234-238): the tighter of initial and trailing stops. -/
def bt_effective_stop (side : Side) (entry b : ℚ) (p : BtRiskParams) : Option ℚ :=
  match bt_initial_stop side entry p, bt_trailing_level side entry b p with
  | some i, some t => some (match side with | Side.CE => max i t | Side.PE => min i t)
  | none, some t => some t
  | some i, none => some i
  | none, none => none

/-- The candle-range stop-breach test of the backtest risk block: the low
touches the stop for a CE, the high touches it for a PE. -/
def bt_stop_breached (side : Side) (e high low : ℚ) : Prop :=
  match side with
  | Side.CE => low ≤ e
  | Side.PE => high ≥ e

/-- The exact target fill level of the backtest risk block. -/
def bt_target_level (side : Side) (entry tgt : ℚ) : ℚ :=
  match side with
  | Side.CE => entry + tgt
  | Side.PE => entry - tgt

/-- Stop branch of the backtest risk block (backtest.py 217-219, 240-242):
fires when the candle range touches the effective stop; fill price is the
effective stop itself and the reason distinguishes trailing from initial. -/
def bt_stop_exit (side : Side) (entry b : ℚ) (p : BtRiskParams)
    (high low : ℚ) : Option (ExitReason × ℚ) :=
  match bt_effective_stop side entry b p with
  | none => none
  | some e =>
      let hit := match side with
                 | Side.CE => decide (low ≤ e)
                 | Side.PE => decide (high ≥ e)
      if hit then
        let reason :=
          match bt_trailing_level side entry b p with
          | some t => if e = t then ExitReason.trailingSlHit else ExitReason.stoplossHit
          | none => ExitReason.stoplossHit
        some (reason, e)
      else none

/-- Target branch of the backtest risk block (backtest.py 220-222,
243-245): fill price is exactly entry plus or minus the target points. -/
def bt_target_exit (side : Side) (entry : ℚ) (p : BtRiskParams)
    (high low : ℚ) : Option (ExitReason × ℚ) :=
  match side with
  | Side.CE =>
      if p.tgt_points > 0 ∧ high ≥ entry + p.tgt_points then
        some (ExitReason.targetHit, entry + p.tgt_points)
      else none
  | Side.PE =>
      if p.tgt_points > 0 ∧ low ≤ entry - p.tgt_points then
        some (ExitReason.targetHit, entry - p.tgt_points)
      else none

/-- Whole risk block for one candle with an open position (backtest.py
188-246): best favorable excursion update, then stop checked first and
target only in the elif. Returns the new best and the optional exit. -/
def bt_risk_exit (side : Side) (entry best : ℚ) (p : BtRiskParams)
    (high low : ℚ) : ℚ × Option (ExitReason × ℚ) :=
  let b := bt_best side entry best high low
  match bt_stop_exit side entry b p high low with
  | some r => (b, some r)
  | none => (b, bt_target_exit side entry p high low)

/-- Fill event of one backtest candle processed for an open or flat
position (backtest.py 188-328), with the decision-policy action of the
candle passed in; agentMode selects the policy-exit reason string. -/
inductive BtEvent
  | riskClose (reason : ExitReason) (price : ℚ)
  | policyExit (reason : ExitReason) (price : ℚ)
  | enter (side : Side) (price : ℚ)
  | skip
deriving DecidableEq, Repr

/-- One candle of the run_backtest position logic: the OHLC risk exits run
first and pre-empt the policy action; risk exits fill at the computed
level, policy entries and exits fill at the candle close. -/
def bt_candle_event (agentMode : Bool) (pos : Option (Side × ℚ)) (best : ℚ)
    (p : BtRiskParams) (high low close : ℚ) (action : AgentAction) : BtEvent :=
  match pos with
  | some (side, entry) =>
      match (bt_risk_exit side entry best p high low).2 with
      | some (r, px) => BtEvent.riskClose r px
      | none =>
          match action with
          | AgentAction.exitPos =>
              BtEvent.policyExit
                (if agentMode then ExitReason.agentExit else ExitReason.flipExit) close
          | _ => BtEvent.skip
  | none =>
      match action with
      | AgentAction.enterCE => BtEvent.enter Side.CE close
      | AgentAction.enterPE => BtEvent.enter Side.PE close
      | _ => BtEvent.skip

/-! ## Full backtest replayer (src/backend/backtest.py run_backtest) -/

/-- Exponential-average step with smoothing 2/(period+1). -/
def emaStep (period : ℕ) (prev x : ℚ) : ℚ :=
  prev + (2 / ((period : ℚ) + 1)) * (x - prev)

/-- Modelled from the spec: the MACD class imported by backtest.py from
indicators is not present under src/ (indicators.py only defines
SuperTrend). Spec section 4.2: fast and slow exponential averages of the
close, a further exponential average of the line as the signal, histogram
is line minus signal, and no value before warm-up. -/
structure MACDState where
  count : ℕ
  ema_fast : ℚ
  ema_slow : ℚ
  ema_sig : ℚ
  last_histogram : ℚ
deriving DecidableEq, Repr

/-- Modelled from the spec: fresh oscillator state, not ready. -/
def MACDState.init : MACDState := ⟨0, 0, 0, 0, 0⟩

/-- Modelled from the spec: one oscillator update on a candle close with
the standard 12/26/9 periods; emits a value once the slow average has
consumed 26 candles. -/
def MACDState.addCandle (s : MACDState) (close : ℚ) : MACDState × Option ℚ :=
  let f := if s.count = 0 then close else emaStep 12 s.ema_fast close
  let sl := if s.count = 0 then close else emaStep 26 s.ema_slow close
  let line := f - sl
  let sg := if s.count = 0 then line else emaStep 9 s.ema_sig line
  let s' : MACDState := ⟨s.count + 1, f, sl, sg, line - sg⟩
  (s', if 26 ≤ s.count + 1 then some line else none)

/-- Modelled from the spec: the ADX class imported by backtest.py from
indicators is not present under src/. Spec section 4.2: Wilder-smoothed
+DM, -DM and true range, DI from their ratios, DX from the DI imbalance,
ADX a Wilder-smoothed average of DX; no output before warm-up. -/
structure ADXState where
  count : ℕ
  prev_high : ℚ
  prev_low : ℚ
  prev_close : ℚ
  sm_plus_dm : ℚ
  sm_minus_dm : ℚ
  sm_tr : ℚ
  adx : ℚ
deriving DecidableEq, Repr

/-- Modelled from the spec: fresh directional-strength state, not ready. -/
def ADXState.init : ADXState := ⟨0, 0, 0, 0, 0, 0, 0, 0⟩

/-- Modelled from the spec: one Wilder update with period 14; emits a
value once 28 candles have been consumed. -/
def ADXState.addCandle (s : ADXState) (high low close : ℚ) : ADXState × Option ℚ :=
  if s.count = 0 then
    (⟨1, high, low, close, 0, 0, 0, 0⟩, none)
  else
    let up := high - s.prev_high
    let dn := s.prev_low - low
    let plus_dm := if up > dn ∧ up > 0 then up else 0
    let minus_dm := if dn > up ∧ dn > 0 then dn else 0
    let tr := max (high - low) (max |high - s.prev_close| |low - s.prev_close|)
    let sp := (s.sm_plus_dm * 13 + plus_dm) / 14
    let sm := (s.sm_minus_dm * 13 + minus_dm) / 14
    let str := (s.sm_tr * 13 + tr) / 14
    let di_plus := if str = 0 then 0 else 100 * sp / str
    let di_minus := if str = 0 then 0 else 100 * sm / str
    let dx := if di_plus + di_minus = 0 then 0 else 100 * |di_plus - di_minus| / (di_plus + di_minus)
    let adx' := (s.adx * 13 + dx) / 14
    let s' : ADXState := ⟨s.count + 1, high, low, close, sp, sm, str, adx'⟩
    (s', if 28 ≤ s.count + 1 then some adx' else none)

/-- One input candle of the backtest; the timestamp is carried verbatim
(the time_utils formatting helper is outside src/ and only affects the
displayed trade times, not any decision). -/
structure BtCandle where
  timestamp : String
  open_ : ℚ
  high : ℚ
  low : ℚ
  close : ℚ
deriving DecidableEq, Repr

/-- One closed trade of the backtest ledger (BacktestTrade with both fills
present; open trades are tracked separately until they close). -/
structure BtTrade where
  side : Side
  entry_time : String
  exit_time : String
  entry_price : ℚ
  exit_price : ℚ
  pnl_points : ℚ
  exit_reason : ExitReason
deriving DecidableEq, Repr

/-- Keyword parameters of run_backtest that the kernel reads. -/
structure BtParams where
  agentMode : Bool
  supertrend_period : ℕ
  supertrend_multiplier : ℚ
  agent_adx_min : ℚ
  agent_wave_reset_macd_abs : ℚ
  initial_stoploss : ℚ
  target_points : ℚ
  trail_start_profit : ℚ
  trail_step : ℚ
  close_open_position_at_end : Bool
deriving DecidableEq, Repr

/-- Loop state of run_backtest (backtest.py 149-166). -/
structure BtState where
  st : STState
  macd : MACDState
  adx : ADXState
  agent : AgentState
  last_st_dir : Option ℤ
  last_macd : Option ℚ
  pos : Option (Side × String × ℚ)
  best : ℚ
  closed : List BtTrade
  equity : ℚ
  equity_curve : List ℚ
deriving DecidableEq, Repr

/-- Initial loop state of run_backtest. -/
def BtState.init (p : BtParams) : BtState :=
  { st := STState.init p.supertrend_period p.supertrend_multiplier
    macd := MACDState.init
    adx := ADXState.init
    agent := (AgentState.init p.agent_adx_min p.agent_wave_reset_macd_abs).reset_session
    last_st_dir := none
    last_macd := none
    pos := none
    best := 0
    closed := []
    equity := 0
    equity_curve := [0] }

/-- Close the open trade at the given price and reason (the backtest.py
pattern of appending the pnl to the equity curve and completing the
trade record, lines 247-264 and 313-328). -/
def bt_close (s : BtState) (ts : String) (px : ℚ) (r : ExitReason) : BtState :=
  match s.pos with
  | none => s
  | some (side, et, ep) =>
      let pnl := calc_points_pnl side ep px
      { s with
        pos := none
        best := 0
        equity := s.equity + pnl
        equity_curve := s.equity_curve ++ [s.equity + pnl]
        closed := s.closed ++ [⟨side, et, ts, ep, px, pnl, r⟩] }

/-- One candle of the run_backtest loop (backtest.py 168-331). -/
def bt_step (p : BtParams) (s0 : BtState) (c : BtCandle) : BtState :=
  let r1 := s0.st.addCandle c.high c.low c.close
  let r2 := s0.macd.addCandle c.close
  let r3 := s0.adx.addCandle c.high c.low c.close
  let s := { s0 with st := r1.1, macd := r2.1, adx := r3.1 }
  match r1.2.1, r2.2, r3.2 with
  | some _, some mval, some aval =>
      let st_dir : ℤ := r1.1.direction
      let flipped :=
        decide ((s.last_st_dir = some (1 : ℤ) ∨ s.last_st_dir = some (-1 : ℤ)) ∧
                (st_dir = 1 ∨ st_dir = -1) ∧ ¬s.last_st_dir = some st_dir)
      let rp : BtRiskParams :=
        ⟨p.initial_stoploss, p.target_points, p.trail_start_profit, p.trail_step⟩
      let riskStep : BtState × Bool :=
        match s.pos with
        | some (side, _, ep) =>
            let re := bt_risk_exit side ep s.best rp c.high c.low
            let s1 : BtState := { s with best := re.1 }
            match re.2 with
            | some (reason, px) => (bt_close s1 c.timestamp px reason, true)
            | none => (s1, false)
        | none => (s, false)
      let s1 : BtState := riskStep.1
      if riskStep.2 then
        { s1 with last_macd := some mval, last_st_dir := some st_dir }
      else
        let posSide : Option Side := s1.pos.map (fun q => q.1)
        let decided : AgentAction × AgentState :=
          if p.agentMode then
            agent_decide s1.agent
              ⟨if st_dir = 1 ∨ st_dir = -1 then some st_dir else none,
               flipped, some aval, some mval, s1.last_macd,
               posSide.isSome, posSide⟩
          else
            (match posSide with
             | none =>
                 if flipped ∧ st_dir = 1 then AgentAction.enterCE
                 else if flipped ∧ st_dir = -1 then AgentAction.enterPE
                 else AgentAction.hold
             | some _ => if flipped then AgentAction.exitPos else AgentAction.hold,
             s1.agent)
        let action := decided.1
        let s2 : BtState := { s1 with agent := decided.2 }
        let s3 : BtState :=
          if (action = AgentAction.enterCE ∨ action = AgentAction.enterPE) ∧ s2.pos = none then
            { s2 with
              pos := some (if action = AgentAction.enterCE then Side.CE else Side.PE,
                           c.timestamp, c.close)
              best := 0 }
          else if action = AgentAction.exitPos ∧ s2.pos.isSome then
            bt_close s2 c.timestamp c.close
              (if p.agentMode then ExitReason.agentExit else ExitReason.flipExit)
          else s2
        { s3 with last_macd := some mval, last_st_dir := some st_dir }
  | stv, mv, _ =>
      { s with
        last_macd := match mv with | some m => some m | none => s.last_macd
        last_st_dir := match stv with | some _ => some r1.1.direction | none => s.last_st_dir }

/-- Summary metrics of run_backtest (backtest.py 347-356, 376-383). -/
structure BtMetrics where
  total_trades : ℕ
  total_pnl_points : ℚ
  win_rate : ℚ
  avg_win : ℚ
  avg_loss : ℚ
  max_drawdown : ℚ
deriving DecidableEq, Repr

/-- Metrics computation from the closed-trade ledger and equity curve,
with every division guarded exactly as in the source. -/
def bt_metrics (closed : List BtTrade) (equity_curve : List ℚ) : BtMetrics :=
  let total_trades := closed.length
  let total_pnl := (closed.map BtTrade.pnl_points).sum
  let wins := closed.filter (fun t => t.pnl_points > 0)
  let losses := closed.filter (fun t => t.pnl_points < 0)
  let win_rate := if total_trades = 0 then 0 else ((wins.length : ℚ) / (total_trades : ℚ)) * 100
  let avg_win := if wins = [] then 0 else (wins.map BtTrade.pnl_points).sum / (wins.length : ℚ)
  let avg_loss := if losses = [] then 0 else |(losses.map BtTrade.pnl_points).sum| / (losses.length : ℚ)
  { total_trades := total_trades
    total_pnl_points := pyRound2 total_pnl
    win_rate := pyRound2 win_rate
    avg_win := pyRound2 avg_win
    avg_loss := pyRound2 avg_loss
    max_drawdown := pyRound2 (equity_max_drawdown equity_curve) }

/-- run_backtest over an (already resampled) candle list: replay the loop,
optionally close the last open position at the final close (reason EOD),
then compute the metrics and the closed-trade ledger. -/
def run_backtest (p : BtParams) (candles : List BtCandle) : BtMetrics × List BtTrade :=
  let s := candles.foldl (bt_step p) (BtState.init p)
  let s' :=
    match candles.getLast? with
    | some last =>
        if p.close_open_position_at_end ∧ s.pos.isSome then
          bt_close s last.timestamp last.close ExitReason.eod
        else s
    | none => s
  (bt_metrics s'.closed s'.equity_curve, s'.closed)

/-- Spec formula of section 4.4, step-trailing mode, written from the
spec's words for comparison with check_trailing_sl: once profit has
reached trailStartProfit the stop is entryPrice plus
floor((highestFavorableExcursion - trailStartProfit)/trailStep) whole
trail steps. -/
def spec_step_trail_stop (entry hfe start step : ℚ) : ℚ :=
  entry + (⌊(hfe - start) / step⌋ : ℚ) * step

/-! ## Helper lemmas -/

/-- Python int() truncation agrees with the floor on nonnegative numbers. -/
theorem pyTrunc_eq_floor (q : ℚ) (h : 0 ≤ q) : pyTrunc q = ⌊q⌋ := by
  unfold pyTrunc
  rw [if_pos h]

/-- Trimming a list to its last n elements (n ≥ 1) keeps the last element. -/
theorem lastN_concat_getLast? (l : List α) (a : α) (n : ℕ) (hn : 1 ≤ n) :
    (lastN n (l ++ [a])).getLast? = some a := by
  unfold lastN
  have hk : (l ++ [a]).length - n ≤ l.length := by
    simp only [List.length_append, List.length_cons, List.length_nil]
    omega
  rw [List.drop_append_of_le_length hk]
  simp [List.getLast?_append_of_ne_nil]

/-- The value component emitted by st_emit. -/
theorem st_emit_out (s : STState) (cs : List Candle3) (atr fu fl : ℚ) (dir : ℤ) :
    (st_emit s cs atr fu fl dir).2.1 = some (if dir = 1 then fl else fu) := rfl

/-- The direction stored by st_emit. -/
theorem st_emit_dir (s : STState) (cs : List Candle3) (atr fu fl : ℚ) (dir : ℤ) :
    (st_emit s cs atr fu fl dir).1.direction = dir := by
  simp only [st_emit]
  split_ifs <;> rfl

/-- The last supertrend_values record stored by st_emit. -/
theorem st_emit_last (s : STState) (cs : List Candle3) (atr fu fl : ℚ) (dir : ℤ) :
    (st_emit s cs atr fu fl dir).1.supertrend_values.getLast? =
      some ⟨fu, fl, if dir = 1 then fl else fu, dir⟩ := by
  simp only [st_emit]
  split_ifs <;>
    first
      | exact lastN_concat_getLast? _ _ 100 (by norm_num)
      | simp [List.getLast?_append_of_ne_nil]

/-- Case analysis of the add_candle direction rule: a bullish direction
turns bearish exactly when the close is below the final lower band, a
bearish one turns bullish exactly when the close is above the final upper
band, and it is unchanged otherwise. -/
theorem st_next_dir_spec (prevdir : ℤ) (close fu fl : ℚ) :
    (prevdir = 1 → ((st_next_dir prevdir close fu fl = -1 ↔ close < fl) ∧
      (¬close < fl → st_next_dir prevdir close fu fl = 1))) ∧
    (¬prevdir = 1 → ((st_next_dir prevdir close fu fl = 1 ↔ close > fu) ∧
      (¬close > fu → st_next_dir prevdir close fu fl = -1))) := by
  constructor
  · intro hp
    rw [st_next_dir, if_pos hp]
    by_cases hc : close < fl
    · rw [if_pos hc]
      exact ⟨iff_of_true rfl hc, fun hn => absurd hc hn⟩
    · rw [if_neg hc]
      exact ⟨iff_of_false (by decide) hc, fun _ => rfl⟩
  · intro hn
    rw [st_next_dir, if_neg hn]
    by_cases hc : close > fu
    · rw [if_pos hc]
      exact ⟨iff_of_true rfl hc, fun hn2 => absurd hc hn2⟩
    · rw [if_neg hc]
      exact ⟨iff_of_false (by decide) hc, fun _ => rfl⟩

/-- The profit-lock and step-trailing update never lowers an existing stop. -/
theorem apply_plst_never_lowers (cfg : RiskConfig) (hp : Bool) (entry ltp x : ℚ)
    (st : TrailState) (hx : st.trailing_sl = some x) :
    ∃ y, (apply_profit_lock_and_step_trailing cfg hp entry st ltp).trailing_sl = some y ∧
      x ≤ y := by
  obtain ⟨tsl, hpf⟩ := st
  simp only at hx
  subst hx
  unfold apply_profit_lock_and_step_trailing
  dsimp only
  split_ifs <;>
    first
      | exact ⟨x, rfl, le_refl x⟩
      | exact ⟨_, rfl, le_max_left _ _⟩

/-- The step-trailing update never lowers an existing stop. -/
theorem check_trailing_never_lowers (hist : Bool) (cfg : RiskConfig) (hp : Bool)
    (entry ltp x : ℚ) (st : TrailState) (hx : st.trailing_sl = some x) :
    ∃ y, (check_trailing_sl hist cfg hp entry st ltp).trailing_sl = some y ∧ x ≤ y := by
  obtain ⟨tsl, hpf⟩ := st
  simp only at hx
  subst hx
  unfold check_trailing_sl
  simp only [reduceCtorEq, and_false, if_false]
  split_ifs with h1 h2 h3 h4 h5 <;>
    first
      | exact ⟨x, rfl, le_refl x⟩
      | exact ⟨_, rfl, le_of_lt (by assumption)⟩

/-- The band-anchored candle-close update never lowers an existing stop. -/
theorem band_anchor_never_lowers (cfg : RiskConfig) (entry ltp stv x : ℚ)
    (st : TrailState) (hx : st.trailing_sl = some x) :
    ∃ y, (band_anchor_update cfg entry st stv ltp).trailing_sl = some y ∧ x ≤ y := by
  obtain ⟨tsl, hpf⟩ := st
  simp only at hx
  subst hx
  unfold band_anchor_update
  obtain ⟨y, hy, hxy⟩ := apply_plst_never_lowers cfg true entry ltp (max x stv)
    ⟨some (max x stv), hpf⟩ rfl
  exact ⟨y, hy, le_trans (le_max_left _ _) hxy⟩

/-! ## Claim theorems -/

/-- C1: for every single open Position, under both stop-computation modes
(step trailing via check_trailing_sl, band anchoring via the SuperTrend
candle-close update with the profit-lock overlay) and in the per-tick
check, an already-set stop level trailing_sl is never lowered by any
update: every update maps a stop x to some y with x ≤ y. -/
theorem c1_stop_monotone (hist : Bool) (cfg : RiskConfig) (hasPos : Bool)
    (entry qty dpnl ltp stv x : ℚ) (st : TrailState)
    (hx : st.trailing_sl = some x) :
    (∃ y, (check_trailing_sl hist cfg hasPos entry st ltp).trailing_sl = some y ∧ x ≤ y) ∧
    (∃ y, (apply_profit_lock_and_step_trailing cfg hasPos entry st ltp).trailing_sl = some y ∧
      x ≤ y) ∧
    (∃ y, (band_anchor_update cfg entry st stv ltp).trailing_sl = some y ∧ x ≤ y) ∧
    (∃ y, (check_tick_sl hist cfg hasPos entry qty dpnl st ltp).state.trailing_sl = some y ∧
      x ≤ y) := by
  refine ⟨check_trailing_never_lowers hist cfg hasPos entry ltp x st hx,
          apply_plst_never_lowers cfg hasPos entry ltp x st hx,
          band_anchor_never_lowers cfg entry ltp stv x st hx, ?_⟩
  simp only [check_tick_sl]
  split_ifs <;>
    first
      | exact ⟨x, hx, le_refl x⟩
      | exact check_trailing_never_lowers false cfg true entry ltp x st hx
      | exact apply_plst_never_lowers cfg true entry ltp x st hx

/-- Witness for C1 at a concrete input: entry 100, stop already 50, tick
price 112, band value 95. -/
theorem c1_stop_monotone_witness :
    (⟨some 50, 0⟩ : TrailState).trailing_sl = some 50 ∧
    ((∃ y, (check_trailing_sl false ⟨50, 10, 5, 0, 0, 0⟩ true 100
        ⟨some 50, 0⟩ 112).trailing_sl = some y ∧ 50 ≤ y) ∧
     (∃ y, (apply_profit_lock_and_step_trailing ⟨50, 10, 5, 0, 0, 0⟩ true 100
        ⟨some 50, 0⟩ 112).trailing_sl = some y ∧ 50 ≤ y) ∧
     (∃ y, (band_anchor_update ⟨50, 10, 5, 0, 0, 0⟩ 100
        ⟨some 50, 0⟩ 95 112).trailing_sl = some y ∧ 50 ≤ y) ∧
     (∃ y, (check_tick_sl false ⟨50, 10, 5, 0, 0, 0⟩ true 100 1 0
        ⟨some 50, 0⟩ 112).state.trailing_sl = some y ∧ 50 ≤ y)) :=
  ⟨rfl, c1_stop_monotone false ⟨50, 10, 5, 0, 0, 0⟩ true 100 1 0 112 95 50
    ⟨some 50, 0⟩ rfl⟩

/-- C2: check_tick_sl evaluates its four exit triggers in strict priority
order with first match winning: daily loss cap, then per-trade loss cap,
then target, then trailing stop. When the daily-loss-cap condition holds
(in particular also when the target condition holds on the same tick) the
reason is Daily Max Loss, never Target Hit, and the halt flag is latched. -/
theorem c2_tick_priority (hist : Bool) (cfg : RiskConfig) (entry qty dpnl ltp : ℚ)
    (st : TrailState) :
    ((cfg.daily_max_loss > 0 ∧ dpnl + (ltp - entry) * qty < -cfg.daily_max_loss) →
      (check_tick_sl hist cfg true entry qty dpnl st ltp).reason =
          some ExitReason.dailyMaxLoss ∧
        (check_tick_sl hist cfg true entry qty dpnl st ltp).reason ≠
          some ExitReason.targetHit ∧
        (check_tick_sl hist cfg true entry qty dpnl st ltp).daily_halt_latched = true) ∧
    (¬(cfg.daily_max_loss > 0 ∧ dpnl + (ltp - entry) * qty < -cfg.daily_max_loss) →
      (cfg.max_loss_per_trade > 0 ∧ (ltp - entry) * qty < -cfg.max_loss_per_trade) →
      (check_tick_sl hist cfg true entry qty dpnl st ltp).reason =
        some ExitReason.maxLossPerTrade) ∧
    (¬(cfg.daily_max_loss > 0 ∧ dpnl + (ltp - entry) * qty < -cfg.daily_max_loss) →
      ¬(cfg.max_loss_per_trade > 0 ∧ (ltp - entry) * qty < -cfg.max_loss_per_trade) →
      (cfg.target_points > 0 ∧ ltp - entry ≥ cfg.target_points) →
      (check_tick_sl hist cfg true entry qty dpnl st ltp).reason =
        some ExitReason.targetHit) ∧
    (¬(cfg.daily_max_loss > 0 ∧ dpnl + (ltp - entry) * qty < -cfg.daily_max_loss) →
      ¬(cfg.max_loss_per_trade > 0 ∧ (ltp - entry) * qty < -cfg.max_loss_per_trade) →
      ¬(cfg.target_points > 0 ∧ ltp - entry ≥ cfg.target_points) →
      (check_tick_sl hist cfg true entry qty dpnl st ltp).reason =
          some ExitReason.trailingSlHit ∨
        (check_tick_sl hist cfg true entry qty dpnl st ltp).reason = none) := by
  simp only [check_tick_sl, reduceCtorEq, if_false]
  split_ifs <;>
    refine ⟨fun hd => ?_, fun hnd hp => ?_, fun hnd hnp ht => ?_, fun hnd hnp hnt => ?_⟩ <;>
      first
        | exact ⟨rfl, by simp, rfl⟩
        | rfl
        | exact Or.inl rfl
        | exact Or.inr rfl
        | tauto

/-- Witness for C2: entry 100, tick 110, qty 1, target 5, daily cap 50,
daily realized pnl -100, so both the daily-cap and target conditions hold. -/
theorem c2_tick_priority_witness :
    ((50 : ℚ) > 0 ∧ (-100 : ℚ) + (110 - 100) * 1 < -50) ∧
    ((5 : ℚ) > 0 ∧ (110 : ℚ) - 100 ≥ 5) ∧
    (check_tick_sl false ⟨0, 0, 0, 5, 0, 50⟩ true 100 1 (-100) ⟨none, 0⟩ 110).reason =
        some ExitReason.dailyMaxLoss ∧
      (check_tick_sl false ⟨0, 0, 0, 5, 0, 50⟩ true 100 1 (-100) ⟨none, 0⟩ 110).daily_halt_latched =
        true :=
  have h := (c2_tick_priority false ⟨0, 0, 0, 5, 0, 50⟩ 100 1 (-100) 110 ⟨none, 0⟩).1
    (by norm_num)
  ⟨by norm_num, by norm_num, h.1, h.2.2⟩

/-- C3 counterexample: on the spec's worked scenario (entry 100, initial
stop 50 points, trail start 10, trail step 5, tick prices 100, 95, 112,
118) the stop after the third price, where the highest favorable
excursion is 12, is 100, not the 110 the scenario text expects. -/
theorem c3_counterexample :
    (run_trailing_ticks false ⟨50, 10, 5, 0, 0, 0⟩ 100 ⟨none, 0⟩
        [100, 95, 112, 118]).2 = [some 50, some 50, some 100, some 105] ∧
      ¬((run_trailing_ticks false ⟨50, 10, 5, 0, 0, 0⟩ 100 ⟨none, 0⟩
        [100, 95, 112, 118]).2.get? 2 = some (some 110)) := by
  have h : (run_trailing_ticks false ⟨50, 10, 5, 0, 0, 0⟩ 100 ⟨none, 0⟩
      [100, 95, 112, 118]).2 = [some 50, some 50, some 100, some 105] := by
    norm_num [run_trailing_ticks, check_trailing_sl, pyTrunc]
    simp
    norm_num
  refine ⟨h, ?_⟩
  rw [h]
  norm_num

/-- C3 (amended): in step-trailing mode, once profit has reached
trailStartProfit the stop is set to the spec formula entry +
floor((hfe - trailStart)/trailStep) steps, applied only if it raises the
stop; the worked scenario therefore yields the stop sequence 50, 50, 100,
105 - not 110 after the third price (110 is the value of the profit-lock
overlay used by the band-anchored mode, not of this formula). -/
theorem c3_step_trailing_formula (cfg : RiskConfig) (entry ltp : ℚ)
    (st : TrailState) (hs : cfg.trail_start_profit > 0)
    (hstep : cfg.trail_step > 0) (hp : ltp - entry ≥ cfg.trail_start_profit) :
    (run_trailing_ticks false ⟨50, 10, 5, 0, 0, 0⟩ 100 ⟨none, 0⟩
        [100, 95, 112, 118]).2 = [some 50, some 50, some 100, some 105] ∧
    (check_trailing_sl false cfg true entry st ltp).trailing_sl =
      some (match (if cfg.initial_stoploss > 0 ∧ st.trailing_sl = none then
                     some (entry - cfg.initial_stoploss)
                   else st.trailing_sl) with
            | none =>
                spec_step_trail_stop entry (max st.highest_profit (ltp - entry))
                  cfg.trail_start_profit cfg.trail_step
            | some x =>
                max x (spec_step_trail_stop entry (max st.highest_profit (ltp - entry))
                  cfg.trail_start_profit cfg.trail_step)) := by
  refine ⟨by norm_num [run_trailing_ticks, check_trailing_sl, pyTrunc]; simp; norm_num, ?_⟩
  have h0 : ¬(cfg.trail_start_profit = 0 ∨ cfg.trail_step = 0) := by
    rintro (h | h)
    · exact absurd (h ▸ hs) (lt_irrefl 0)
    · exact absurd (h ▸ hstep) (lt_irrefl 0)
  have hnlt : ¬(ltp - entry < cfg.trail_start_profit) := not_lt.mpr hp
  have hmax : (if ltp - entry > st.highest_profit then ltp - entry else st.highest_profit)
      = max st.highest_profit (ltp - entry) := by
    rcases le_or_lt (ltp - entry) st.highest_profit with h | h
    · rw [if_neg (not_lt.mpr h), max_eq_left h]
    · rw [if_pos h, max_eq_right h.le]
  have hnum : 0 ≤ (max st.highest_profit (ltp - entry) - cfg.trail_start_profit)
      / cfg.trail_step :=
    div_nonneg (sub_nonneg.mpr (le_trans hp (le_max_right _ _))) hstep.le
  have hfl := pyTrunc_eq_floor _ hnum
  unfold check_trailing_sl
  simp only [reduceCtorEq, if_false, Bool.false_eq_true, if_neg h0, if_neg hnlt, hmax, hfl,
    spec_step_trail_stop]
  rcases hbase : (if cfg.initial_stoploss > 0 ∧ st.trailing_sl = none then
      some (entry - cfg.initial_stoploss) else st.trailing_sl) with _ | x
  · simp only [hbase]
  · simp only [hbase]
    rcases le_or_lt (entry + (⌊(max st.highest_profit (ltp - entry) - cfg.trail_start_profit)
        / cfg.trail_step⌋ : ℚ) * cfg.trail_step) x with h | h
    · rw [if_neg (not_lt.mpr h)]
      simp only [max_eq_left h]
    · rw [if_pos h]
      simp only [max_eq_right h.le]

/-- Witness for C3 (amended) at entry 100, price 112, trail start 10,
step 5, with the stop already at 50. -/
theorem c3_step_trailing_formula_witness :
    ((10 : ℚ) > 0 ∧ (5 : ℚ) > 0 ∧ (112 : ℚ) - 100 ≥ 10) ∧
    (check_trailing_sl false ⟨50, 10, 5, 0, 0, 0⟩ true 100 ⟨some 50, 0⟩ 112).trailing_sl =
      some (max 50 (spec_step_trail_stop 100 (max 0 (112 - 100)) 10 5)) :=
  have h := c3_step_trailing_formula ⟨50, 10, 5, 0, 0, 0⟩ 100 112 ⟨some 50, 0⟩
    (by norm_num) (by norm_num) (by norm_num)
  ⟨⟨by norm_num, by norm_num, by norm_num⟩, h.2⟩

/-- C4 counterexample: the backtest trade-PnL helper flips sign by side.
For a PE trade entered at 100 and exited at 110 it returns -10, not the
currentPrice - entryPrice = 10 the claim asserts for every option kind. -/
theorem c4_counterexample :
    calc_points_pnl Side.PE 100 110 = -10 ∧
      ¬(calc_points_pnl Side.PE 100 110 = 110 - 100) := by
  constructor <;> norm_num [calc_points_pnl]

/-- C4 (amended): the live per-tick risk check takes no side input and its
profit is always ltp - entry (with the loss caps disabled, its target
trigger fires exactly when ltp - entry reaches the target), while the
backtest trade PnL is exit - entry for CE but entry - exit for PE,
because the backtest replays index points and a PE gains when the index
falls. -/
theorem c4_profit_orientation (hist : Bool) (e x entry qty dpnl ltp : ℚ)
    (st : TrailState) (cfg : RiskConfig) (hd : cfg.daily_max_loss = 0)
    (hm : cfg.max_loss_per_trade = 0) (htp : cfg.target_points > 0) :
    calc_points_pnl Side.CE e x = x - e ∧
    calc_points_pnl Side.PE e x = e - x ∧
    calc_points_pnl Side.PE e x = -(calc_points_pnl Side.CE e x) ∧
    ((check_tick_sl hist cfg true entry qty dpnl st ltp).reason =
        some ExitReason.targetHit ↔ ltp - entry ≥ cfg.target_points) := by
  have h1 : ¬(cfg.daily_max_loss > 0 ∧ dpnl + (ltp - entry) * qty < -cfg.daily_max_loss) := by
    rw [hd]
    rintro ⟨h, _⟩
    exact lt_irrefl 0 h
  have h2 : ¬(cfg.max_loss_per_trade > 0 ∧ (ltp - entry) * qty < -cfg.max_loss_per_trade) := by
    rw [hm]
    rintro ⟨h, _⟩
    exact lt_irrefl 0 h
  refine ⟨rfl, rfl, by simp [calc_points_pnl], ?_⟩
  simp only [check_tick_sl, reduceCtorEq, if_false, if_neg h1, if_neg h2]
  split_ifs with h3 <;>
    first
      | (simp only [Option.some_inj, true_iff]
         exact h3.2)
      | exact iff_of_false (by simp) (fun hge => h3 ⟨htp, hge⟩)

/-- Witness for C4 (amended): entry 100, tick 110, target 5, caps off. -/
theorem c4_profit_orientation_witness :
    calc_points_pnl Side.CE 100 110 = 110 - 100 ∧
    calc_points_pnl Side.PE 100 110 = 100 - 110 ∧
    calc_points_pnl Side.PE 100 110 = -(calc_points_pnl Side.CE 100 110) ∧
    ((check_tick_sl false ⟨0, 0, 0, 5, 0, 0⟩ true 100 1 0 ⟨none, 0⟩ 110).reason =
        some ExitReason.targetHit ↔ (110 : ℚ) - 100 ≥ 5) :=
  c4_profit_orientation false 100 110 100 1 0 110 ⟨none, 0⟩ ⟨0, 0, 0, 5, 0, 0⟩
    rfl rfl (by norm_num)

/-- C5: for every SuperTrend state that has already emitted a value (its
supertrend_values end in a record prev), the next add_candle leaves the
direction unchanged when it emits nothing, and when it emits, the new
direction stored with the new final bands flips from bullish (1) to
bearish (-1) exactly when the close is below the current final lower
band, flips from bearish to bullish exactly when the close is above the
current final upper band, and is unchanged on every other candle. -/
theorem c5_direction_flips_only_on_band_cross (s : STState) (high low close : ℚ)
    (prev : STVal) (hprev : s.supertrend_values.getLast? = some prev) :
    ((s.addCandle high low close).2.1 = none →
      (s.addCandle high low close).1.direction = s.direction) ∧
    (∀ v, (s.addCandle high low close).2.1 = some v →
      ∃ nv, (s.addCandle high low close).1.supertrend_values.getLast? = some nv ∧
        (s.addCandle high low close).1.direction = nv.direction ∧
        nv.direction = st_next_dir prev.direction close nv.upper nv.lower ∧
        (prev.direction = 1 → ((nv.direction = -1 ↔ close < nv.lower) ∧
          (¬close < nv.lower → nv.direction = 1))) ∧
        (¬prev.direction = 1 → ((nv.direction = 1 ↔ close > nv.upper) ∧
          (¬close > nv.upper → nv.direction = -1)))) := by
  unfold STState.addCandle
  split_ifs with hwarm <;>
    first
      | exact ⟨fun _ => rfl, fun v hv => by simp at hv⟩
      | (simp only [hprev, st_emit_out, st_emit_dir, st_emit_last]
         refine ⟨fun hnone => by simp at hnone, fun v hv => ?_⟩
         exact ⟨_, rfl, rfl, rfl,
           (st_next_dir_spec prev.direction close _ _).1,
           (st_next_dir_spec prev.direction close _ _).2⟩)

/-- Witness for C5: a state with period 1, one candle and one emitted
bullish record, fed the flat candle (1, 1, 1). -/
theorem c5_direction_flips_witness :
    (([⟨2, 0, 0, 1⟩] : List STVal).getLast? = some ⟨2, 0, 0, 1⟩) ∧
    (∃ nv, ((⟨1, 0, [⟨1, 1, 1⟩], [0], [⟨2, 0, 0, 1⟩], 1⟩ : STState).addCandle
        1 1 1).1.supertrend_values.getLast? = some nv ∧
      ((⟨1, 0, [⟨1, 1, 1⟩], [0], [⟨2, 0, 0, 1⟩], 1⟩ : STState).addCandle
        1 1 1).1.direction = nv.direction ∧
      nv.direction = st_next_dir (⟨2, 0, 0, 1⟩ : STVal).direction 1 nv.upper nv.lower ∧
      ((⟨2, 0, 0, 1⟩ : STVal).direction = 1 → ((nv.direction = -1 ↔ (1 : ℚ) < nv.lower) ∧
        (¬(1 : ℚ) < nv.lower → nv.direction = 1))) ∧
      (¬(⟨2, 0, 0, 1⟩ : STVal).direction = 1 → ((nv.direction = 1 ↔ (1 : ℚ) > nv.upper) ∧
        (¬(1 : ℚ) > nv.upper → nv.direction = -1)))) := by
  have hout : ((⟨1, 0, [⟨1, 1, 1⟩], [0], [⟨2, 0, 0, 1⟩], 1⟩ : STState).addCandle
      1 1 1).2.1 = some 1 := by
    norm_num [STState.addCandle, st_emit, st_final_bands, st_next_dir]
  exact ⟨rfl, (c5_direction_flips_only_on_band_cross
    ⟨1, 0, [⟨1, 1, 1⟩], [0], [⟨2, 0, 0, 1⟩], 1⟩ 1 1 1 ⟨2, 0, 0, 1⟩ rfl).2 1 hout⟩

/-- Warm-up invariant of SuperTrend: while the candle history stays below
the period, every add_candle call returns (none, none) and only appends
the candle, leaving direction, period and multiplier untouched. -/
theorem st_run_warmup (cs : List Candle3) (s : STState)
    (h : s.candles.length + cs.length < s.period) :
    (∀ o ∈ (s.run cs).2, o = ((none : Option ℚ), (none : Option STSignal))) ∧
      (s.run cs).1.direction = s.direction ∧
      (s.run cs).1.candles.length = s.candles.length + cs.length := by
  induction cs generalizing s with
  | nil =>
      exact ⟨fun o ho => absurd ho (List.not_mem_nil o), rfl, by simp [STState.run]⟩
  | cons c rest ih =>
      have hw : (s.candles ++ [Candle3.mk c.high c.low c.close]).length < s.period := by
        simp only [List.length_append, List.length_cons, List.length_nil]
        simp only [List.length_cons] at h
        omega
      have he : s.addCandle c.high c.low c.close =
          ({ s with candles := s.candles ++ [Candle3.mk c.high c.low c.close] }, none, none) := by
        unfold STState.addCandle
        rw [if_pos hw]
      have hlen : ({ s with candles := s.candles ++ [Candle3.mk c.high c.low c.close] } :
          STState).candles.length + rest.length < s.period := by
        simp only [List.length_append, List.length_cons, List.length_nil]
        simp only [List.length_cons] at h
        omega
      obtain ⟨ih1, ih2, ih3⟩ :=
        ih { s with candles := s.candles ++ [Candle3.mk c.high c.low c.close] } hlen
      simp only [STState.run, he]
      refine ⟨?_, ih2, ?_⟩
      · intro o ho
        rcases List.mem_cons.mp ho with h1 | h1
        · exact h1
        · exact ih1 o h1
      · simp only [ih3, List.length_append, List.length_cons, List.length_nil]
        omega

/-- C10: a fresh SuperTrend instance fed fewer than period candles
returns (none, none) on every call, its readable direction stays at the
construction value 1 (bullish) throughout the warm-up, and reset()
restores direction 1. -/
theorem c10_warmup_not_ready (p : ℕ) (m : ℚ) (cs : List Candle3)
    (h : cs.length < p) :
    (∀ o ∈ ((STState.init p m).run cs).2,
        o = ((none : Option ℚ), (none : Option STSignal))) ∧
      ((STState.init p m).run cs).1.direction = 1 ∧
      (STState.init p m).direction = 1 ∧
      (((STState.init p m).run cs).1.reset).direction = 1 := by
  have hr := st_run_warmup cs (STState.init p m) (by simpa [STState.init] using h)
  exact ⟨hr.1, hr.2.1, rfl, rfl⟩

/-- Witness for C10: period 7, two candles. -/
theorem c10_warmup_not_ready_witness :
    ([(⟨1, 1, 1⟩ : Candle3), ⟨2, 1, 2⟩].length < 7) ∧
    ((∀ o ∈ ((STState.init 7 4).run [⟨1, 1, 1⟩, ⟨2, 1, 2⟩]).2,
        o = ((none : Option ℚ), (none : Option STSignal))) ∧
      ((STState.init 7 4).run [⟨1, 1, 1⟩, ⟨2, 1, 2⟩]).1.direction = 1 ∧
      (STState.init 7 4).direction = 1 ∧
      (((STState.init 7 4).run [⟨1, 1, 1⟩, ⟨2, 1, 2⟩]).1.reset).direction = 1) :=
  ⟨by norm_num, c10_warmup_not_ready 7 4 [⟨1, 1, 1⟩, ⟨2, 1, 2⟩] (by norm_num)⟩

/-- C7: the wave-lock clearing rule runs before every other rule of
STAdxMacdAgent.decide. Whenever the lock is set and the oscillator's
current absolute value is below the reset threshold, the whole call
(action and post-state) behaves exactly as if it had started unlocked. -/
theorem c7_wave_lock_cleared_first (s : AgentState) (i : AgentInputs) (m : ℚ)
    (hl : s.wave_lock = true) (hm : i.macd_cur = some m)
    (hr : |m| < s.wave_reset_macd_abs) :
    agent_decide s i = agent_decide { s with wave_lock := false } i := by
  unfold agent_decide
  simp only [hl, hm, if_pos hr, if_true, Bool.false_eq_true, if_false]

/-- Witness for C7, the spec scenario: an ENTER at oscillator 0.10 sets
the lock; the next candle has oscillator 0.01 with reset threshold 0.05,
and the call behaves exactly as from the unlocked state. -/
theorem c7_wave_lock_cleared_first_witness :
    agent_decide (AgentState.init 20 (1/20))
        ⟨some 1, true, some 25, some (1/10), some (1/20), false, none⟩ =
      (AgentAction.enterCE, ⟨20, 1/20, true, some Side.CE⟩) ∧
    (⟨20, 1/20, true, some Side.CE⟩ : AgentState).wave_lock = true ∧
    |(1/100 : ℚ)| < (⟨20, 1/20, true, some Side.CE⟩ : AgentState).wave_reset_macd_abs ∧
    agent_decide ⟨20, 1/20, true, some Side.CE⟩
        ⟨some 1, false, some 25, some (1/100), some (1/10), false, none⟩ =
      agent_decide ⟨20, 1/20, false, some Side.CE⟩
        ⟨some 1, false, some 25, some (1/100), some (1/10), false, none⟩ :=
  ⟨by norm_num [agent_decide, AgentState.init], rfl,
    by rw [abs_of_pos] <;> norm_num,
    c7_wave_lock_cleared_first ⟨20, 1/20, true, some Side.CE⟩
      ⟨some 1, false, some 25, some (1/100), some (1/10), false, none⟩ (1/100)
      rfl rfl (by rw [abs_of_pos] <;> norm_num)⟩

/-- The key order is reflexive. -/
theorem keyLE_refl (center a : ℤ) : keyLE center a a :=
  Or.inr ⟨rfl, le_refl a⟩

/-- The key order is transitive. -/
theorem keyLE_trans (center : ℤ) (a b c : ℤ) (h1 : keyLE center a b)
    (h2 : keyLE center b c) : keyLE center a c := by
  rcases h1 with h1 | ⟨h1e, h1le⟩ <;> rcases h2 with h2 | ⟨h2e, h2le⟩
  · exact Or.inl (lt_trans h1 h2)
  · exact Or.inl (h2e ▸ h1)
  · exact Or.inl (h1e ▸ h2)
  · exact Or.inr ⟨h1e.trans h2e, h1le.trans h2le⟩

/-- A false strict key comparison means the flipped weak comparison. -/
theorem keyLE_of_not_lt (center a b : ℤ) (h : strike_key_lt center a b = false) :
    keyLE center b a := by
  unfold strike_key_lt at h
  split_ifs at h with h1 h2
  · exact Or.inr ⟨h2.symm, le_of_not_lt (by simpa using h)⟩
  · rcases lt_trichotomy (|b - center|) (|a - center|) with h3 | h3 | h3
    · exact Or.inl h3
    · exact absurd h3.symm h2
    · exact absurd h3 h1

/-- A true strict key comparison implies the weak comparison. -/
theorem keyLE_of_lt (center a b : ℤ) (h : strike_key_lt center a b = true) :
    keyLE center a b := by
  unfold strike_key_lt at h
  split_ifs at h with h1 h2
  · exact Or.inl h1
  · exact Or.inr ⟨h2, le_of_lt (by simpa using h)⟩

/-- The _pick_nearest fold started from a candidate returns a minimum of
the key order among the candidate and the rest of the list. -/
theorem pick_nearest_go (center : ℤ) (l : List ℤ) (b : ℤ) :
    ∃ r, l.foldl (fun acc s =>
        match acc with
        | none => some s
        | some q => if strike_key_lt center s q then some s else some q) (some b) =
          some r ∧
      (r = b ∨ r ∈ l) ∧ keyLE center r b ∧ ∀ t ∈ l, keyLE center r t := by
  induction l generalizing b with
  | nil =>
      exact ⟨b, rfl, Or.inl rfl, keyLE_refl center b,
        fun t ht => absurd ht (List.not_mem_nil t)⟩
  | cons x xs ih =>
      simp only [List.foldl_cons]
      by_cases hxb : strike_key_lt center x b = true
      · rw [if_pos hxb]
        obtain ⟨r, hr, hmem, hrx, hall⟩ := ih x
        refine ⟨r, hr, ?_, keyLE_trans center r x b hrx (keyLE_of_lt center x b hxb), ?_⟩
        · rcases hmem with h | h
          · exact Or.inr (h ▸ List.mem_cons_self x xs)
          · exact Or.inr (List.mem_cons_of_mem x h)
        · intro t ht
          rcases List.mem_cons.mp ht with h | h
          · exact h ▸ hrx
          · exact hall t h
      · rw [if_neg hxb]
        rw [Bool.not_eq_true] at hxb
        obtain ⟨r, hr, hmem, hrb, hall⟩ := ih b
        refine ⟨r, hr, ?_, hrb, ?_⟩
        · rcases hmem with h | h
          · exact Or.inl h
          · exact Or.inr (List.mem_cons_of_mem x h)
        · intro t ht
          rcases List.mem_cons.mp ht with h | h
          · exact h ▸ keyLE_trans center r b x hrb (keyLE_of_not_lt center x b hxb)
          · exact hall t h

/-- Specification of _pick_nearest: none exactly on the empty list, and
an answer is a member minimizing (distance to center, strike value). -/
theorem pick_nearest_spec (center : ℤ) (l : List ℤ) :
    (l ≠ [] → ∃ s, pick_nearest center l = some s) ∧
    (∀ s, pick_nearest center l = some s → s ∈ l ∧ ∀ t ∈ l, keyLE center s t) := by
  cases l with
  | nil =>
      constructor
      · intro h
        exact absurd rfl h
      · intro s hs
        simp [pick_nearest] at hs
  | cons x xs =>
      obtain ⟨r, hr, hmem, hrx, hall⟩ := pick_nearest_go center xs x
      have hpick : pick_nearest center (x :: xs) = some r := by
        unfold pick_nearest
        simpa using hr
      constructor
      · exact fun _ => ⟨r, hpick⟩
      · intro s hs
        rw [hpick] at hs
        cases hs
        constructor
        · rcases hmem with h | h
          · exact h ▸ List.mem_cons_self x xs
          · exact List.mem_cons_of_mem x h
        · intro t ht
          rcases List.mem_cons.mp ht with h | h
          · exact h ▸ hrx
          · exact hall t h

/-- C8: the candle-close entry selection prefers any eligible CE strike
over every eligible PE strike, and within the chosen option kind picks
the strike nearest the current ATM center, ties broken by the lower
strike value. -/
theorem c8_entry_selection (center : ℤ) (ce pe : List ℤ) :
    (ce ≠ [] → ∃ s, choose_entry center ce pe = some (Side.CE, s)) ∧
    (∀ s, choose_entry center ce pe = some (Side.CE, s) →
      s ∈ ce ∧ ∀ t ∈ ce, |s - center| < |t - center| ∨
        (|s - center| = |t - center| ∧ s ≤ t)) ∧
    (∀ s, choose_entry center ce pe = some (Side.PE, s) →
      ce = [] ∧ s ∈ pe ∧ ∀ t ∈ pe, |s - center| < |t - center| ∨
        (|s - center| = |t - center| ∧ s ≤ t)) := by
  obtain ⟨hce1, hce2⟩ := pick_nearest_spec center ce
  obtain ⟨hpe1, hpe2⟩ := pick_nearest_spec center pe
  cases hce : pick_nearest center ce with
  | some s0 =>
      refine ⟨fun _ => ⟨s0, by simp [choose_entry, hce]⟩, ?_, ?_⟩
      · intro s hs
        simp only [choose_entry, hce, Option.some_inj, Prod.mk.injEq] at hs
        exact hs.2 ▸ hce2 s0 hce
      · intro s hs
        simp [choose_entry, hce] at hs
  | none =>
      have hnil : ce = [] := by
        by_contra hne
        obtain ⟨s, hs⟩ := hce1 hne
        rw [hce] at hs
        cases hs
      refine ⟨fun hne => absurd hnil hne, ?_, ?_⟩
      · intro s hs
        simp only [choose_entry, hce] at hs
        cases hpe : pick_nearest center pe <;> rw [hpe] at hs <;> simp at hs
      · intro s hs
        simp only [choose_entry, hce] at hs
        cases hpe : pick_nearest center pe with
        | some p =>
            rw [hpe] at hs
            simp only [Option.some_inj, Prod.mk.injEq] at hs
            exact ⟨hnil, hs.2 ▸ hpe2 p hpe⟩
        | none =>
            rw [hpe] at hs
            cases hs

/-- Witness for C8: center 25000, eligible CE strikes 25100 and 24900
(both 100 away, the lower wins), one eligible PE strike at the center. -/
theorem c8_entry_selection_witness :
    (([25100, 24900] : List ℤ) ≠ []) ∧
    (∃ s, choose_entry 25000 [25100, 24900] [25000] = some (Side.CE, s)) ∧
    ((24900 : ℤ) ∈ ([25100, 24900] : List ℤ) ∧
      ∀ t ∈ ([25100, 24900] : List ℤ), |(24900 : ℤ) - 25000| < |t - 25000| ∨
        (|(24900 : ℤ) - 25000| = |t - 25000| ∧ (24900 : ℤ) ≤ t)) :=
  ⟨by simp,
   (c8_entry_selection 25000 [25100, 24900] [25000]).1 (by simp),
   (c8_entry_selection 25000 [25100, 24900] [25000]).2.1 24900 (by decide)⟩

/-- A stop exit of the backtest risk block never carries the target
reason, and always fills exactly at the effective stop level. -/
theorem bt_stop_exit_shape (side : Side) (entry b : ℚ) (p : BtRiskParams)
    (high low : ℚ) (r : ExitReason) (px : ℚ)
    (h : bt_stop_exit side entry b p high low = some (r, px)) :
    r ≠ ExitReason.targetHit ∧ bt_effective_stop side entry b p = some px := by
  unfold bt_stop_exit at h
  cases heff : bt_effective_stop side entry b p with
  | none =>
      rw [heff] at h
      cases h
  | some e =>
      rw [heff] at h
      dsimp only at h
      split_ifs at h with h1
      cases h
      refine ⟨?_, rfl⟩
      rcases htr : bt_trailing_level side entry b p with _ | t <;> dsimp only
      · simp
      · split_ifs <;> simp

/-- A breached effective stop always produces a stop exit filling at the
stop level. -/
theorem bt_stop_exit_fires (side : Side) (entry b : ℚ) (p : BtRiskParams)
    (high low e : ℚ) (heff : bt_effective_stop side entry b p = some e)
    (hbreach : bt_stop_breached side e high low) :
    ∃ r, bt_stop_exit side entry b p high low = some (r, e) ∧
      r ≠ ExitReason.targetHit := by
  cases side with
  | CE =>
      have hb : low ≤ e := hbreach
      unfold bt_stop_exit
      rw [heff]
      dsimp only
      rw [if_pos (by simpa using hb)]
      rcases htr : bt_trailing_level Side.CE entry b p with _ | t <;> dsimp only
      · exact ⟨ExitReason.stoplossHit, rfl, by simp⟩
      · split_ifs
        · exact ⟨ExitReason.trailingSlHit, rfl, by simp⟩
        · exact ⟨ExitReason.stoplossHit, rfl, by simp⟩
  | PE =>
      have hb : high ≥ e := hbreach
      unfold bt_stop_exit
      rw [heff]
      dsimp only
      rw [if_pos (by simpa using hb)]
      rcases htr : bt_trailing_level Side.PE entry b p with _ | t <;> dsimp only
      · exact ⟨ExitReason.stoplossHit, rfl, by simp⟩
      · split_ifs
        · exact ⟨ExitReason.trailingSlHit, rfl, by simp⟩
        · exact ⟨ExitReason.stoplossHit, rfl, by simp⟩

/-- A target exit of the backtest risk block carries the target reason
and fills exactly at entry plus (CE) or minus (PE) the target points. -/
theorem bt_target_exit_shape (side : Side) (entry : ℚ) (p : BtRiskParams)
    (high low : ℚ) (r : ExitReason) (px : ℚ)
    (h : bt_target_exit side entry p high low = some (r, px)) :
    r = ExitReason.targetHit ∧ px = bt_target_level side entry p.tgt_points := by
  unfold bt_target_exit at h
  cases side <;> split_ifs at h <;> cases h <;> exact ⟨rfl, rfl⟩

/-- C6: within one backtest candle with an open position, the stop branch
pre-empts the target branch (a candle breaching both exits with the stop
reason, never Target Hit), OHLC-triggered exits fill at the exact
computed stop or target level, and policy-driven exits and entries fill
at the candle's close. -/
theorem c6_stop_before_target (agentMode : Bool) (side : Side)
    (entry best : ℚ) (p : BtRiskParams) (high low close : ℚ)
    (action : AgentAction) :
    (∀ e, bt_effective_stop side entry (bt_best side entry best high low) p = some e →
      bt_stop_breached side e high low →
      ∃ r, bt_candle_event agentMode (some (side, entry)) best p high low close action =
          BtEvent.riskClose r e ∧ r ≠ ExitReason.targetHit) ∧
    (bt_stop_exit side entry (bt_best side entry best high low) p high low = none →
      ∀ r px, bt_target_exit side entry p high low = some (r, px) →
      bt_candle_event agentMode (some (side, entry)) best p high low close action =
          BtEvent.riskClose r px ∧ r = ExitReason.targetHit ∧
        px = bt_target_level side entry p.tgt_points) ∧
    (bt_stop_exit side entry (bt_best side entry best high low) p high low = none →
      bt_target_exit side entry p high low = none →
      action = AgentAction.exitPos →
      bt_candle_event agentMode (some (side, entry)) best p high low close action =
        BtEvent.policyExit
          (if agentMode then ExitReason.agentExit else ExitReason.flipExit) close) ∧
    (bt_candle_event agentMode none best p high low close AgentAction.enterCE =
        BtEvent.enter Side.CE close ∧
      bt_candle_event agentMode none best p high low close AgentAction.enterPE =
        BtEvent.enter Side.PE close) := by
  refine ⟨?_, ?_, ?_, by constructor <;> rfl⟩
  · intro e heff hbreach
    obtain ⟨r, hr, hrt⟩ := bt_stop_exit_fires side entry
      (bt_best side entry best high low) p high low e heff hbreach
    refine ⟨r, ?_, hrt⟩
    simp only [bt_candle_event, bt_risk_exit, hr]
  · intro hstop r px htar
    have hshape := bt_target_exit_shape side entry p high low r px htar
    refine ⟨?_, hshape.1, hshape.2⟩
    simp only [bt_candle_event, bt_risk_exit, hstop, htar]
  · intro hstop htar haction
    subst haction
    simp only [bt_candle_event, bt_risk_exit, hstop, htar]

/-- Witness for C6: a CE position entered at 100 with a 50-point stop and
5-point target, on a candle with high 112 and low 40 that breaches both;
the exit is the stop at exactly 50, not the target. -/
theorem c6_stop_before_target_witness :
    bt_effective_stop Side.CE 100 (bt_best Side.CE 100 0 112 40) ⟨50, 5, 0, 0⟩ =
        some 50 ∧
    bt_stop_breached Side.CE 50 112 40 ∧
    ((5 : ℚ) > 0 ∧ (112 : ℚ) ≥ 100 + 5) ∧
    (∃ r, bt_candle_event true (some (Side.CE, 100)) 0 ⟨50, 5, 0, 0⟩ 112 40 111
        AgentAction.hold = BtEvent.riskClose r 50 ∧ r ≠ ExitReason.targetHit) := by
  have heff : bt_effective_stop Side.CE 100 (bt_best Side.CE 100 0 112 40)
      ⟨50, 5, 0, 0⟩ = some 50 := by
    norm_num [bt_effective_stop, bt_best, bt_initial_stop, bt_trailing_level]
  have hbr : bt_stop_breached Side.CE 50 112 40 := by
    norm_num [bt_stop_breached]
  refine ⟨heff, hbr, by norm_num, ?_⟩
  exact (c6_stop_before_target true Side.CE 100 0 ⟨50, 5, 0, 0⟩ 112 40 111
    AgentAction.hold).1 50 heff hbr

/-- C9: for every parameter set, replaying an empty candle sequence
returns zero closed trades, zero total PnL points, zero win rate, zero
average win and loss, zero max drawdown, and an empty ledger; all the
rate and average computations are guarded so no division is reached. -/
theorem c9_empty_backtest (p : BtParams) :
    run_backtest p [] = (⟨0, 0, 0, 0, 0, 0⟩, []) := by
  have hr0 : pyRound2 0 = 0 := by
    norm_num [pyRound2, roundHalfEven]
  unfold run_backtest bt_metrics equity_max_drawdown BtState.init
  simp [hr0]

end TB
